import Mathlib

/-!
Verification of the FTP backup tool's archive-set reconciliation and
retention engine (`backup_ftp.py`), as a shallow embedding.

Files, archive sets and remote listings are modelled as `String` lists.
The FTP side effects that the engine observes are passed in explicitly:
a remote directory listing is an `Option (List String)` (`none` models an
exception while listing), the outcome of a single upload-with-verify call
is a `String → Bool` oracle, and the attempt-level behaviour of
`_upload_file_to_ftp_with_retry` is driven by a `Nat → UOutcome` oracle
classifying each attempt of the try body plus a `Nat → Bool` oracle for
session re-establishment.  Traces of FTP operations are recorded as event
lists so that retry, backoff and session-reuse behaviour can be stated.
-/

namespace FTPBackup

/-- All characters are ASCII decimal digits (models the regex class `\d`
as it occurs in the timestamp pattern, and `str.isdigit` on plain digits). -/
def allDigits (l : List Char) : Bool :=
  l.all Char.isDigit

/-- Numeric value of a digit string, most significant first. -/
def digitsVal (l : List Char) : Nat :=
  l.foldl (fun n c => n * 10 + (c.toNat - 48)) 0

/-- `p` is a prefix of `s` (Python `str.startswith`, also used to model the
glob pattern `f"{base_name}*"` of `_cleanup_local_archives`, whose base
names contain no glob metacharacters). -/
def strStartsWith (s p : String) : Bool :=
  p.data.isPrefixOf s.data

/-- `p` is a suffix of `s` (Python `str.endswith`). -/
def strEndsWith (s p : String) : Bool :=
  p.data.isSuffixOf s.data

/-- `needle` occurs as a contiguous sublist of the second list. -/
def listInfix (needle : List Char) : List Char → Bool
  | [] => needle.isEmpty
  | c :: rest => needle.isPrefixOf (c :: rest) || listInfix needle rest

/-- `p` occurs as a substring of `s` (Python `p in s`). -/
def strContains (s p : String) : Bool :=
  listInfix p.data s.data

/-- Python `s.rsplit('.', 1)[0]`: everything before the last `'.'`
(the whole string when there is no `'.'`). -/
def rsplitBeforeLastDot (s : String) : String :=
  match s.data.reverse.dropWhile (fun c => c != '.') with
  | [] => s
  | _ :: rest => String.mk rest.reverse

/-- Python `s.split('.')[-1]`: everything after the last `'.'`
(the whole string when there is no `'.'`). -/
def lastDotComponent (s : String) : String :=
  String.mk ((s.data.reverse.takeWhile (fun c => c != '.')).reverse)

/-- Python `int(s)` on the forms that occur as volume suffixes: an optional
sign followed by one or more ASCII digits; `none` models `ValueError`. -/
def pyInt (s : String) : Option Int :=
  match s.data with
  | [] => none
  | '-' :: ds =>
    if !ds.isEmpty && allDigits ds then some (-(digitsVal ds : Int)) else none
  | '+' :: ds =>
    if !ds.isEmpty && allDigits ds then some ((digitsVal ds : Int)) else none
  | ds =>
    if !ds.isEmpty && allDigits ds then some ((digitsVal ds : Int)) else none

/-- `_get_archive_base_name`: strip a trailing volume suffix, checking the
remainder still ends in `.tar`; `none` for non-archive filenames. -/
def get_archive_base_name (filename : String) : Option String :=
  if !(strEndsWith filename ".tar") && !(strContains filename ".tar.") then
    none
  else if strContains filename ".tar." then
    let base := rsplitBeforeLastDot filename
    if strEndsWith base ".tar" then some base else none
  else
    some filename

/-- `_get_volume_number`: numeric suffix after the last `.tar.`; `0` for the
first volume and on parse failure. -/
def get_volume_number (filename : String) : Int :=
  if strContains filename ".tar." then
    match pyInt (lastDotComponent filename) with
    | some n => n
    | none => 0
  else 0

/-- Gregorian leap year, as `datetime` uses. -/
def leapYear (y : Nat) : Bool :=
  (y % 4 == 0 && y % 100 != 0) || (y % 400 == 0)

/-- Days in a month, as `datetime` validates them. -/
def daysInMonth (y m : Nat) : Nat :=
  if m == 2 then (if leapYear y then 29 else 28)
  else if m == 4 || m == 6 || m == 9 || m == 11 then 30
  else 31

/-- Field validation performed by `datetime.strptime(..., "%Y%m%d_%H%M%S")`:
the `datetime` constructor accepts years 1..9999, valid month/day
combinations, and time fields in their usual ranges. -/
def validDateTime (y mo d h mi s : Nat) : Bool :=
  decide (1 ≤ y ∧ y ≤ 9999 ∧ 1 ≤ mo ∧ mo ≤ 12 ∧ 1 ≤ d ∧ d ≤ daysInMonth y mo ∧
    h ≤ 23 ∧ mi ≤ 59 ∧ s ≤ 59)

/-- Match of the fixed-length pattern `_(\d{8}_\d{6})_` anchored at the
start of `l`; returns the 14 captured digits. -/
def tsAt (l : List Char) : Option (List Char) :=
  match l with
  | '_' :: rest =>
    let d1 := rest.take 8
    if d1.length == 8 && allDigits d1 then
      match rest.drop 8 with
      | '_' :: rest3 =>
        let d2 := rest3.take 6
        if d2.length == 6 && allDigits d2 then
          match rest3.drop 6 with
          | '_' :: _ => some (d1 ++ d2)
          | _ => none
        else none
      | _ => none
    else none
  | _ => none

/-- Leftmost match of `_(\d{8}_\d{6})_`, as `re.search` finds it (the
pattern has fixed length, so a position-by-position scan is exact). -/
def tsSearch : List Char → Option (List Char)
  | [] => none
  | c :: rest =>
    match tsAt (c :: rest) with
    | some d => some d
    | none => tsSearch rest

/-- `_get_archive_timestamp`: search the base name for `_YYYYMMDD_HHMMSS_`,
validate it as a datetime, and return it as the 14-digit number
`YYYYMMDDHHMMSS` (numeric order on this key coincides with chronological
order on the validated fields). -/
def get_archive_timestamp (base_name : String) : Option Nat :=
  match tsSearch base_name.data with
  | none => none
  | some ds =>
    let y := digitsVal (ds.take 4)
    let mo := digitsVal ((ds.drop 4).take 2)
    let d := digitsVal ((ds.drop 6).take 2)
    let h := digitsVal ((ds.drop 8).take 2)
    let mi := digitsVal ((ds.drop 10).take 2)
    let s := digitsVal ((ds.drop 12).take 2)
    if validDateTime y mo d h mi s then some (digitsVal ds) else none

/-- Number of remote filenames prefixed by `base_name`. -/
def prefixCount (files : List String) (base_name : String) : Nat :=
  (files.filter (fun f => strStartsWith f base_name)).length

/-- `_check_archive_exists_on_ftp`: `listing = none` models an exception
while changing directory or listing (caught: `(False, [])`); otherwise the
prefix-matching filenames are returned together with their nonemptiness. -/
def check_archive_exists_on_ftp (listing : Option (List String))
    (base_name : String) : Bool × List String :=
  match listing with
  | none => (false, [])
  | some files =>
    let existing := files.filter (fun f => strStartsWith f base_name)
    (!existing.isEmpty, existing)

/-- The upload loops of `_process_archive_set`: try each volume in order
with `_upload_file_to_ftp_with_retry` (abstracted by the `uploadOk`
oracle), stopping at the first failure.  Returns the overall success flag
and the list of volumes for which an upload call was made. -/
def uploadMissing (uploadOk : String → Bool) : List String → Bool × List String
  | [] => (true, [])
  | v :: rest =>
    if uploadOk v then
      let r := uploadMissing uploadOk rest
      (r.1, v :: r.2)
    else (false, [v])

/-- `_process_archive_set`: three-way branch on the remote prefix matches.
Returns the per-set success flag and the upload calls made.  The
`try/except` around the body only converts exceptions of the FTP helpers
into `False`; those helpers are modelled as non-throwing here
(`check_archive_exists_on_ftp` already catches internally, and an upload
that raises behaves like a failed upload for this function's result). -/
def process_archive_set (listing : Option (List String)) (base_name : String)
    (archive_set : List String) (uploadOk : String → Bool) : Bool × List String :=
  let c := check_archive_exists_on_ftp listing base_name
  if c.1 then
    if c.2.length == archive_set.length then (true, [])
    else uploadMissing uploadOk (archive_set.filter (fun v => !(c.2.contains v)))
  else uploadMissing uploadOk archive_set

/-- Python `lst[:-m]` for `m ≥ 0`: note `lst[:-0]` is `lst[:0] = []`. -/
def pySliceDropLastN (l : List (Nat × String × List String)) (m : Nat) :
    List (Nat × String × List String) :=
  if m == 0 then [] else l.take (l.length - m)

/-- Stable ascending sort by timestamp key (Python `list.sort(key=...)`). -/
def sortByTs (l : List (Nat × String × List String)) :
    List (Nat × String × List String) :=
  List.insertionSort (fun a b => a.1 ≤ b.1) l

/-- Stable ascending sort by volume number (Python `list.sort(key=...)`). -/
def sortByVolume (fs : List String) : List String :=
  List.insertionSort (fun a b => get_volume_number a ≤ get_volume_number b) fs

/-- The `successful_sets` dict of `_cleanup_local_archives`: for each
successfully uploaded base name (in iteration order), the local files
matching the glob `f"{base_name}*"`, kept only when nonempty. -/
def local_successful_groups (successful : List String)
    (localFiles : List String) : List (String × List String) :=
  successful.filterMap (fun b =>
    let fs := localFiles.filter (fun f => strStartsWith f b)
    if fs.isEmpty then none else some (b, fs))

/-- The `sets_with_timestamp` list: groups whose base name has a parseable
timestamp, tagged with it. -/
def withTimestamps (groups : List (String × List String)) :
    List (Nat × String × List String) :=
  groups.filterMap (fun p =>
    match get_archive_timestamp p.1 with
    | some t => some (t, p.1, p.2)
    | none => none)

/-- `_cleanup_local_archives`: returns the local files whose deletion is
attempted (set `[:-1]` after the ascending sort), in deletion order. -/
def cleanup_local_archives (successful : List String)
    (localFiles : List String) : List String :=
  if (local_successful_groups successful localFiles).length ≤ 1 then []
  else if (withTimestamps (local_successful_groups successful localFiles)).isEmpty then []
  else ((sortByTs (withTimestamps
    (local_successful_groups successful localFiles))).dropLast).flatMap (fun e => e.2.2)

/-- The `archive_sets` dict of `_cleanup_old_ftp_backups`: a Python dict in
insertion order; a file is appended to its base name's entry. -/
def addToGroups (gs : List (String × List String)) (b f : String) :
    List (String × List String) :=
  match gs with
  | [] => [(b, [f])]
  | p :: rest =>
    if p.1 == b then (p.1, p.2 ++ [f]) :: rest else p :: addToGroups rest b f

/-- One file of the grouping loop in `_cleanup_old_ftp_backups`: a file
with a recognized base name that is among this run's successful sets is
appended to that base name's group. -/
def ftpGroupStep (successful : List String)
    (gs : List (String × List String)) (f : String) :
    List (String × List String) :=
  match get_archive_base_name f with
  | some b => if successful.contains b then addToGroups gs b f else gs
  | none => gs

/-- Grouping pass of `_cleanup_old_ftp_backups`: remote filenames grouped by
base name, restricted to this run's successful base names. -/
def ftp_successful_groups (files : List String) (successful : List String) :
    List (String × List String) :=
  files.foldl (ftpGroupStep successful) []

/-- The `archive_timestamps` list of `_cleanup_old_ftp_backups`: timestamped
groups, each group's files sorted by volume number. -/
def ftp_timestamped_sets (files : List String) (successful : List String) :
    List (Nat × String × List String) :=
  (ftp_successful_groups files successful).filterMap (fun p =>
    match get_archive_timestamp p.1 with
    | some t => some (t, p.1, sortByVolume p.2)
    | none => none)

/-- `_cleanup_old_ftp_backups`: returns the remote files whose deletion is
attempted (`archive_timestamps[:-max_copies]` after the ascending sort,
entered only when there are more than `max_copies` timestamped sets), in
deletion order.  Deletion is best-effort per file in the source; the
returned list is the files for which `ftp.delete` is called. -/
def cleanup_old_ftp_backups (files : List String) (successful : List String)
    (maxCopies : Nat) : List String :=
  if maxCopies < (sortByTs (ftp_timestamped_sets files successful)).length then
    (pySliceDropLastN (sortByTs (ftp_timestamped_sets files successful))
      maxCopies).flatMap (fun e => e.2.2)
  else []

/-- Classification of one iteration of the retry loop's `try` body in
`_upload_file_to_ftp_with_retry`: the store-and-verify succeeded, the
post-upload size verification failed, `ftplib.error_temp` was raised, or
some other exception was raised. -/
inductive UOutcome
  | success
  | verifyFail
  | tempErr
  | otherErr
deriving DecidableEq

/-- Result of `_upload_file_to_ftp_with_retry`: a returned boolean, or an
exception propagating out of the call (which the source can only do from
`self._connect_ftp()` inside the `error_temp` handler). -/
inductive URes
  | returned (b : Bool)
  | raised
deriving DecidableEq

/-- FTP operations recorded in traces, tagged with the session id used. -/
inductive FtpEv
  | cwdE (sess : Nat)
  | storeE (sess : Nat) (attempt : Nat)
  | sleepE (secs : Nat)
  | quitE (sess : Nat)
  | connectE (sess : Nat)
deriving DecidableEq

/-- The retry loop of `_upload_file_to_ftp_with_retry`.  `attempt` is the
0-based loop counter, `sess` the session currently bound to the local
variable `ftp`, `nextSess` the id the next successfully created session
will get, and `remaining = max_retries - attempt` the iterations left.
Each iteration re-selects the directory (`cwd`) and stores the file; on
`error_temp` before the last attempt it sleeps `2^attempt` seconds, quits
the session and rebinds `ftp` to a fresh session (`connOk` telling whether
`_connect_ftp` succeeds; its failure raises out of the call); on another
exception before the last attempt it sleeps `2^attempt` with no reconnect;
on a verification failure it retries immediately. -/
def uploadRetryAux (outcome : Nat → UOutcome) (connOk : Nat → Bool) :
    Nat → Nat → Nat → Nat → URes × List FtpEv × Nat
  | _, _, nextSess, 0 => (URes.returned false, [], nextSess)
  | attempt, sess, nextSess, r + 1 =>
    let pre := [FtpEv.cwdE sess, FtpEv.storeE sess attempt]
    match outcome attempt with
    | UOutcome.success => (URes.returned true, pre, nextSess)
    | UOutcome.verifyFail =>
      let rest := uploadRetryAux outcome connOk (attempt + 1) sess nextSess r
      (rest.1, pre ++ rest.2.1, rest.2.2)
    | UOutcome.tempErr =>
      if r == 0 then (URes.returned false, pre, nextSess)
      else
        let pre2 := pre ++ [FtpEv.sleepE (2 ^ attempt), FtpEv.quitE sess]
        if connOk nextSess then
          let rest := uploadRetryAux outcome connOk (attempt + 1) nextSess (nextSess + 1) r
          (rest.1, pre2 ++ [FtpEv.connectE nextSess] ++ rest.2.1, rest.2.2)
        else (URes.raised, pre2, nextSess)
    | UOutcome.otherErr =>
      if r == 0 then (URes.returned false, pre, nextSess)
      else
        let rest := uploadRetryAux outcome connOk (attempt + 1) sess nextSess r
        (rest.1, pre ++ [FtpEv.sleepE (2 ^ attempt)] ++ rest.2.1, rest.2.2)

/-- `_upload_file_to_ftp_with_retry` with its default `max_retries = 3`. -/
def upload_file_to_ftp_with_retry (outcome : Nat → UOutcome)
    (connOk : Nat → Bool) (sess nextSess : Nat) : URes × List FtpEv × Nat :=
  uploadRetryAux outcome connOk 0 sess nextSess 3

/-- The volume loop of `_process_archive_set` at session granularity: every
volume's upload is attempted on the caller's session `sess`, because a
reconnect inside `_upload_file_to_ftp_with_retry` rebinds only that
function's local `ftp` variable.  An upload that returns `False` or raises
stops the set (the set-level `except` turns a raise into `False`). -/
def processVolumesOnSession (connOk : Nat → Bool) (sess : Nat) :
    List (Nat → UOutcome) → Nat → Bool × List FtpEv × Nat
  | [], nextSess => (true, [], nextSess)
  | o :: rest, nextSess =>
    let u := upload_file_to_ftp_with_retry o connOk sess nextSess
    match u.1 with
    | URes.returned true =>
      let r := processVolumesOnSession connOk sess rest u.2.2
      (r.1, u.2.1 ++ r.2.1, r.2.2)
    | _ => (false, u.2.1, u.2.2)

/-- Number of storage attempts in a trace. -/
def storeCount : List FtpEv → Nat
  | [] => 0
  | FtpEv.storeE _ _ :: rest => storeCount rest + 1
  | FtpEv.cwdE _ :: rest => storeCount rest
  | FtpEv.sleepE _ :: rest => storeCount rest
  | FtpEv.quitE _ :: rest => storeCount rest
  | FtpEv.connectE _ :: rest => storeCount rest

/-- Number of sleeps in a trace. -/
def sleepCount : List FtpEv → Nat
  | [] => 0
  | FtpEv.sleepE _ :: rest => sleepCount rest + 1
  | FtpEv.storeE _ _ :: rest => sleepCount rest
  | FtpEv.cwdE _ :: rest => sleepCount rest
  | FtpEv.quitE _ :: rest => sleepCount rest
  | FtpEv.connectE _ :: rest => sleepCount rest

/-- Number of session re-establishments in a trace. -/
def connectCount : List FtpEv → Nat
  | [] => 0
  | FtpEv.connectE _ :: rest => connectCount rest + 1
  | FtpEv.storeE _ _ :: rest => connectCount rest
  | FtpEv.cwdE _ :: rest => connectCount rest
  | FtpEv.sleepE _ :: rest => connectCount rest
  | FtpEv.quitE _ :: rest => connectCount rest

/-- The inputs `run` consumes: whether `_connect_ftp` and
`_ensure_remote_directory` succeed (their failure raises to `run`'s
top-level handler), the locator's base-name/volume-list mapping in dict
order, the per-set remote listing and per-volume upload outcomes seen
while processing, the remote re-listing and local directory contents seen
by the two cleanup passes, and `max_copies`. -/
structure RunWorld where
  connectOk : Bool
  ensureDirOk : Bool
  archiveSets : List (String × List String)
  listing : String → Option (List String)
  uploadOk : String → Bool
  remoteListing : List String
  localFiles : List String
  maxCopies : Nat

/-- What `run` produces: its return value (`none` models the bare `return`
when no archive sets are found; `sys.exit(None)` exits with status 0), the
run's success/failure accumulators, and the deletions attempted by the two
cleanup passes. -/
structure RunResult where
  exitCode : Option Nat
  successful : List String
  failed : List String
  remoteDeleted : List String
  localDeleted : List String

/-- One iteration of `run`'s per-set loop: record the base name as
successful or failed according to `_process_archive_set`. -/
def runStep (listing : String → Option (List String)) (uploadOk : String → Bool)
    (acc : List String × List String) (s : String × List String) :
    List String × List String :=
  if (process_archive_set (listing s.1) s.1 s.2 uploadOk).1 then
    (acc.1 ++ [s.1], acc.2)
  else (acc.1, acc.2 ++ [s.1])

/-- `run`: connect, ensure the remote directory, process every set
(continuing past failures), run both cleanups only when at least one set
succeeded, and return `1` when any set failed, `0` otherwise; an
unrecoverable error before the loop returns `2`. -/
def run (w : RunWorld) : RunResult :=
  if !w.connectOk then ⟨some 2, [], [], [], []⟩
  else if !w.ensureDirOk then ⟨some 2, [], [], [], []⟩
  else if w.archiveSets.isEmpty then ⟨none, [], [], [], []⟩
  else
    let acc := w.archiveSets.foldl (runStep w.listing w.uploadOk) ([], [])
    let remoteDel :=
      if acc.1.isEmpty then []
      else cleanup_old_ftp_backups w.remoteListing acc.1 w.maxCopies
    let localDel :=
      if acc.1.isEmpty then []
      else cleanup_local_archives acc.1 w.localFiles
    ⟨some (if acc.2.isEmpty then 0 else 1), acc.1, acc.2, remoteDel, localDel⟩

/-- `main`: exit status 130 on `KeyboardInterrupt`, 2 when constructing
`FTPBackup` raises (e.g. missing configuration), otherwise `run`'s return
value with `None` mapped to exit status 0 by `sys.exit`. -/
def mainExit (w : RunWorld) (interrupted : Bool) (initOk : Bool) : Nat :=
  if interrupted then 130
  else if !initOk then 2
  else
    match (run w).exitCode with
    | none => 0
    | some c => c

/-! ### Helper lemmas about the upload loop -/

theorem uploadMissing_spec (u : String → Bool) (l : List String) :
    uploadMissing u l = (l.all u, l.takeWhile u ++ (l.dropWhile u).take 1) := by
  induction l with
  | nil => simp [uploadMissing]
  | cons v rest ih =>
    by_cases h : u v
    · simp [uploadMissing, h, ih]
    · simp [uploadMissing, h]

theorem takeWhile_eq_of_all {α : Type} (p : α → Bool) (l : List α)
    (h : l.all p = true) : l.takeWhile p = l := by
  induction l with
  | nil => rfl
  | cons a rest ih =>
    simp only [List.all_cons, Bool.and_eq_true] at h
    simp [List.takeWhile_cons, h.1, ih h.2]

theorem dropWhile_eq_nil_of_all {α : Type} (p : α → Bool) (l : List α)
    (h : l.all p = true) : l.dropWhile p = [] := by
  induction l with
  | nil => rfl
  | cons a rest ih =>
    simp only [List.all_cons, Bool.and_eq_true] at h
    simp [List.dropWhile_cons, h.1, ih h.2]

theorem uploadMissing_of_all (u : String → Bool) (l : List String)
    (h : l.all u = true) : uploadMissing u l = (true, l) := by
  rw [uploadMissing_spec, takeWhile_eq_of_all u l h, dropWhile_eq_nil_of_all u l h, h]
  simp

theorem uploadMissing_snd_prefix (u : String → Bool) : ∀ l : List String,
    (uploadMissing u l).2 <+: l
  | [] => by simp [uploadMissing]
  | v :: rest => by
    by_cases h : u v
    · obtain ⟨t, ht⟩ := uploadMissing_snd_prefix u rest
      exact ⟨t, by simp [uploadMissing, h, ht]⟩
    · exact ⟨rest, by simp [uploadMissing, h]⟩

/-! ### Claims C4, C5, C10, C1: the Reconciler (`_process_archive_set`) -/

/-- Claim C4 (confirmed): if the number of remote filenames prefixed by the
set's base name equals the number of local volume files, the Reconciler
makes zero upload calls and the set is processed successfully (idempotent
skip). -/
theorem c4_idempotent_skip (files : List String) (base_name : String)
    (archive_set : List String) (uploadOk : String → Bool)
    (h : prefixCount files base_name = archive_set.length) :
    process_archive_set (some files) base_name archive_set uploadOk = (true, []) := by
  have hlen : (files.filter (fun f => strStartsWith f base_name)).length
      = archive_set.length := h
  unfold process_archive_set check_archive_exists_on_ftp
  by_cases he : (files.filter (fun f => strStartsWith f base_name)).isEmpty
  · have h0 : archive_set = [] := by
      rw [List.isEmpty_iff] at he
      rw [he] at hlen
      exact List.length_eq_zero.mp hlen.symm
    simp [he, h0, uploadMissing]
  · simp [he, hlen, uploadMissing]

/-- Witness for C4 at a concrete one-volume set already fully remote. -/
theorem c4_witness :
    process_archive_set (some ["x_20260101_000000_a.tar"]) "x_20260101_000000_a.tar"
      ["x_20260101_000000_a.tar"] (fun _ => false) = (true, []) :=
  c4_idempotent_skip ["x_20260101_000000_a.tar"] "x_20260101_000000_a.tar"
    ["x_20260101_000000_a.tar"] (fun _ => false) (by decide)

/-- Claim C5 (confirmed): when some but not all prefix-matching volumes
exist remotely, the Reconciler's upload calls are exactly the local volume
filenames not present in the remote listing, in set order (hence ascending
volume order when the set is sorted), the first failure stops the set (the
call trace is the successful prefix plus at most the one failing call),
and the `{0,1,2}` local / `{0,1}` remote example makes exactly one upload
call, for volume 2. -/
theorem c5_repair_path (files : List String) (base_name : String)
    (archive_set : List String) (uploadOk : String → Bool)
    (hpre : ∀ v ∈ archive_set, strStartsWith v base_name = true)
    (hsome : 0 < prefixCount files base_name)
    (hne : prefixCount files base_name ≠ archive_set.length) :
    process_archive_set (some files) base_name archive_set uploadOk =
      uploadMissing uploadOk (archive_set.filter (fun v => !(files.contains v))) ∧
    ((∀ v ∈ archive_set.filter (fun v => !(files.contains v)), uploadOk v = true) →
      process_archive_set (some files) base_name archive_set uploadOk =
        (true, archive_set.filter (fun v => !(files.contains v)))) ∧
    (process_archive_set (some files) base_name archive_set uploadOk).2 =
      (archive_set.filter (fun v => !(files.contains v))).takeWhile uploadOk ++
      ((archive_set.filter (fun v => !(files.contains v))).dropWhile uploadOk).take 1 ∧
    (List.Pairwise (fun a b => get_volume_number a ≤ get_volume_number b) archive_set →
      List.Pairwise (fun a b => get_volume_number a ≤ get_volume_number b)
        (process_archive_set (some files) base_name archive_set uploadOk).2) ∧
    process_archive_set
        (some ["x_20260101_000000_a.tar", "x_20260101_000000_a.tar.1"])
        "x_20260101_000000_a.tar"
        ["x_20260101_000000_a.tar", "x_20260101_000000_a.tar.1",
          "x_20260101_000000_a.tar.2"] (fun _ => true) =
      (true, ["x_20260101_000000_a.tar.2"]) := by
  have hmain : process_archive_set (some files) base_name archive_set uploadOk =
      uploadMissing uploadOk (archive_set.filter (fun v => !(files.contains v))) := by
    have hne' : ¬ (files.filter (fun f => strStartsWith f base_name)).isEmpty := by
      intro hemp
      rw [List.isEmpty_iff] at hemp
      exact absurd hsome (by simp [prefixCount, hemp])
    have hlen : ¬ ((files.filter (fun f => strStartsWith f base_name)).length
        = archive_set.length) := hne
    unfold process_archive_set check_archive_exists_on_ftp
    simp [hne', hlen]
    congr 1
    apply List.filter_congr
    intro v hv
    simp [hpre v hv]
  refine ⟨hmain, ?_, ?_, ?_, by decide⟩
  · intro hall
    rw [hmain, uploadMissing_of_all _ _ (List.all_eq_true.mpr hall)]
  · rw [hmain, uploadMissing_spec]
  · intro hsorted
    have h1 : (process_archive_set (some files) base_name archive_set uploadOk).2 <+:
        archive_set.filter (fun v => !(files.contains v)) := by
      rw [hmain]; exact uploadMissing_snd_prefix _ _
    exact List.Pairwise.sublist (h1.sublist.trans (List.filter_sublist _)) hsorted

/-- Witness for C5 at the `{0,1,2}` local / `{0,1}` remote example. -/
theorem c5_witness :
    process_archive_set
        (some ["x_20260101_000000_a.tar", "x_20260101_000000_a.tar.1"])
        "x_20260101_000000_a.tar"
        ["x_20260101_000000_a.tar", "x_20260101_000000_a.tar.1",
          "x_20260101_000000_a.tar.2"] (fun _ => true) =
      (true, ["x_20260101_000000_a.tar.2"]) :=
  (c5_repair_path ["x_20260101_000000_a.tar", "x_20260101_000000_a.tar.1"]
    "x_20260101_000000_a.tar"
    ["x_20260101_000000_a.tar", "x_20260101_000000_a.tar.1",
      "x_20260101_000000_a.tar.2"] (fun _ => true)
    (by decide) (by decide) (by decide)).2.1 (by decide)

/-- Claim C10 (confirmed): a failed remote listing makes
`_check_archive_exists_on_ftp` return `(False, [])` instead of raising, so
the Reconciler takes the upload-all branch: a nonempty set always makes at
least one transfer, and it is processed successfully only when every
volume of the set was uploaded. -/
theorem c10_listing_failure (base_name : String) (archive_set : List String)
    (uploadOk : String → Bool) (h : archive_set ≠ []) :
    check_archive_exists_on_ftp none base_name = (false, []) ∧
    process_archive_set none base_name archive_set uploadOk =
      uploadMissing uploadOk archive_set ∧
    (process_archive_set none base_name archive_set uploadOk).2 ≠ [] ∧
    ((process_archive_set none base_name archive_set uploadOk).1 = true →
      (process_archive_set none base_name archive_set uploadOk).2 = archive_set) := by
  have hmain : process_archive_set none base_name archive_set uploadOk =
      uploadMissing uploadOk archive_set := rfl
  refine ⟨rfl, hmain, ?_, ?_⟩
  · rw [hmain]
    match archive_set, h with
    | v :: rest, _ =>
      by_cases hv : uploadOk v
      · simp [uploadMissing, hv]
      · simp [uploadMissing, hv]
  · intro htrue
    rw [hmain] at htrue ⊢
    rw [uploadMissing_spec] at htrue
    simp only at htrue
    rw [uploadMissing_of_all _ _ htrue]

/-- Witness for C10 at a concrete one-volume set with a failed listing. -/
theorem c10_witness :
    (process_archive_set none "b.tar" ["b.tar"] (fun _ => true)).2 ≠ [] ∧
    (process_archive_set none "b.tar" ["b.tar"] (fun _ => true)).2 = ["b.tar"] :=
  ⟨(c10_listing_failure "b.tar" ["b.tar"] (fun _ => true) (by decide)).2.2.1,
    (c10_listing_failure "b.tar" ["b.tar"] (fun _ => true) (by decide)).2.2.2 (by decide)⟩

/-- Claim C1 counterexample: with local volumes `b.tar`, `b.tar.2` and a
remote listing `b.tar`, `b.tar.1`, the prefix count (2) equals the local
volume count, so the set is processed successfully with zero upload calls
even though the local volume `b.tar.2` neither appears in the remote
listing nor was uploaded: the claim's completeness condition is violated. -/
theorem c1_counterexample :
    (process_archive_set (some ["b.tar", "b.tar.1"]) "b.tar" ["b.tar", "b.tar.2"]
        (fun _ => false)).1 = true ∧
    (process_archive_set (some ["b.tar", "b.tar.1"]) "b.tar" ["b.tar", "b.tar.2"]
        (fun _ => false)).2 = [] ∧
    "b.tar.2" ∈ ["b.tar", "b.tar.2"] ∧
    "b.tar.2" ∉ ["b.tar", "b.tar.1"] := by
  refine ⟨by decide, by decide, by decide, by decide⟩

/-- Claim C1 as amended (proved): a set is processed successfully only if
either the remote prefix count equals the local volume count (the
count-based skip, which does not compare filenames), or every local volume
filename appears in the remote listing or is among this run's upload
calls; moreover on success every upload call made for the set succeeded
(upload-and-size-verify returned true). -/
theorem c1_upload_marking (listing : Option (List String)) (base_name : String)
    (archive_set : List String) (uploadOk : String → Bool)
    (h : (process_archive_set listing base_name archive_set uploadOk).1 = true) :
    (prefixCount (listing.getD []) base_name = archive_set.length ∨
      ∀ v ∈ archive_set, v ∈ listing.getD [] ∨
        v ∈ (process_archive_set listing base_name archive_set uploadOk).2) ∧
    ∀ v ∈ (process_archive_set listing base_name archive_set uploadOk).2,
      uploadOk v = true := by
  match listing with
  | none =>
    have hmain : process_archive_set none base_name archive_set uploadOk =
        uploadMissing uploadOk archive_set := rfl
    rw [hmain] at h
    rw [uploadMissing_spec] at h
    simp only at h
    have hall := uploadMissing_of_all uploadOk archive_set h
    rw [hmain, hall]
    refine ⟨Or.inr ?_, ?_⟩
    · intro v hv
      exact Or.inr hv
    · intro v hv
      exact List.all_eq_true.mp h v hv
  | some files =>
    by_cases he : (files.filter (fun f => strStartsWith f base_name)).isEmpty
    · have hmain : process_archive_set (some files) base_name archive_set uploadOk =
          uploadMissing uploadOk archive_set := by
        unfold process_archive_set check_archive_exists_on_ftp
        simp [he]
      rw [hmain] at h ⊢
      rw [uploadMissing_spec] at h
      simp only at h
      rw [uploadMissing_of_all uploadOk archive_set h]
      refine ⟨Or.inr (fun v hv => Or.inr hv), fun v hv => List.all_eq_true.mp h v hv⟩
    · by_cases hlen : (files.filter (fun f => strStartsWith f base_name)).length
          = archive_set.length
      · refine ⟨Or.inl ?_, ?_⟩
        · simpa [prefixCount] using hlen
        · have hmain : process_archive_set (some files) base_name archive_set uploadOk
              = (true, []) := by
            unfold process_archive_set check_archive_exists_on_ftp
            simp [he, hlen]
          rw [hmain]
          intro v hv
          simp at hv
      · have hmain : process_archive_set (some files) base_name archive_set uploadOk =
            uploadMissing uploadOk (archive_set.filter
              (fun v => !((files.filter (fun f => strStartsWith f base_name)).contains v))) := by
          unfold process_archive_set check_archive_exists_on_ftp
          simp [he, hlen]
        rw [hmain] at h ⊢
        rw [uploadMissing_spec] at h
        simp only at h
        rw [uploadMissing_of_all _ _ h]
        refine ⟨Or.inr ?_, fun v hv => List.all_eq_true.mp h v hv⟩
        intro v hv
        by_cases hex : v ∈ files.filter (fun f => strStartsWith f base_name)
        · exact Or.inl (by simpa using (List.mem_filter.mp hex).1)
        · refine Or.inr (List.mem_filter.mpr ⟨hv, ?_⟩)
          simp [List.elem_eq_mem, hex]

/-- Witness for C1's amended theorem at a concrete fully-absent set. -/
theorem c1_witness :
    prefixCount [] "b.tar" = (["b.tar"] : List String).length ∨
      ∀ v ∈ (["b.tar"] : List String), v ∈ ([] : List String) ∨
        v ∈ (process_archive_set (some []) "b.tar" ["b.tar"] (fun _ => true)).2 :=
  (c1_upload_marking (some []) "b.tar" ["b.tar"] (fun _ => true) (by decide)).1

/-! ### Claims C6, C7, C9: the Transfer Executor and session handling -/

/-- Attempt outcomes: transient errors on attempts 0 and 1, success on
attempt 2. -/
def outcomeTTS : Nat → UOutcome :=
  fun i => if i < 2 then UOutcome.tempErr else UOutcome.success

/-- Attempt outcomes: verification failures on attempts 0 and 1, success on
attempt 2. -/
def outcomeVVS : Nat → UOutcome :=
  fun i => if i < 2 then UOutcome.verifyFail else UOutcome.success

/-- Attempt outcomes: a transient error on attempt 0, then success. -/
def outcomeTempFirst : Nat → UOutcome :=
  fun i => if i == 0 then UOutcome.tempErr else UOutcome.success

/-- Attempt outcomes: every attempt succeeds. -/
def outcomeAllOk : Nat → UOutcome := fun _ => UOutcome.success

/-- Session re-establishment always succeeds. -/
def connAlwaysOk : Nat → Bool := fun _ => true

/-- Session re-establishment always fails (`_connect_ftp` raises). -/
def connNeverOk : Nat → Bool := fun _ => false

theorem storeCount_append (l1 l2 : List FtpEv) :
    storeCount (l1 ++ l2) = storeCount l1 + storeCount l2 := by
  induction l1 with
  | nil => simp [storeCount]
  | cons e rest ih => cases e <;> simp [storeCount, ih] <;> omega

theorem sleepCount_append (l1 l2 : List FtpEv) :
    sleepCount (l1 ++ l2) = sleepCount l1 + sleepCount l2 := by
  induction l1 with
  | nil => simp [sleepCount]
  | cons e rest ih => cases e <;> simp [sleepCount, ih] <;> omega

theorem connectCount_append (l1 l2 : List FtpEv) :
    connectCount (l1 ++ l2) = connectCount l1 + connectCount l2 := by
  induction l1 with
  | nil => simp [connectCount]
  | cons e rest ih => cases e <;> simp [connectCount, ih] <;> omega

theorem uploadRetryAux_storeCount_le (outcome : Nat → UOutcome)
    (connOk : Nat → Bool) :
    ∀ (r attempt sess nextSess : Nat),
      storeCount (uploadRetryAux outcome connOk attempt sess nextSess r).2.1 ≤ r
  | 0, _, _, _ => by simp [uploadRetryAux, storeCount]
  | r + 1, attempt, sess, nextSess => by
    have ih1 := uploadRetryAux_storeCount_le outcome connOk r (attempt + 1) sess nextSess
    have ih2 := uploadRetryAux_storeCount_le outcome connOk r (attempt + 1) nextSess
      (nextSess + 1)
    unfold uploadRetryAux
    match outcome attempt with
    | UOutcome.success => simp [storeCount]
    | UOutcome.verifyFail =>
      simp only [storeCount_append]
      simp [storeCount]
      omega
    | UOutcome.tempErr =>
      match r, ih1, ih2 with
      | 0, _, _ => simp [storeCount]
      | r' + 1, ih1, ih2 =>
        by_cases hc : connOk nextSess
        · simp only [hc, Nat.succ_ne_zero, beq_iff_eq, if_false, if_true]
          simp [storeCount_append, storeCount]
          omega
        · simp only [hc, Nat.succ_ne_zero, beq_iff_eq, if_false]
          simp [storeCount_append, storeCount]
    | UOutcome.otherErr =>
      match r, ih1 with
      | 0, _ => simp [storeCount]
      | r' + 1, ih1 =>
        simp [storeCount_append, storeCount]
        omega

theorem uploadRetryAux_no_error_no_backoff (outcome : Nat → UOutcome)
    (connOk : Nat → Bool)
    (hout : ∀ i, outcome i = UOutcome.success ∨ outcome i = UOutcome.verifyFail) :
    ∀ (r attempt sess nextSess : Nat),
      sleepCount (uploadRetryAux outcome connOk attempt sess nextSess r).2.1 = 0 ∧
      connectCount (uploadRetryAux outcome connOk attempt sess nextSess r).2.1 = 0
  | 0, _, _, _ => by simp [uploadRetryAux, sleepCount, connectCount]
  | r + 1, attempt, sess, nextSess => by
    have ih := uploadRetryAux_no_error_no_backoff outcome connOk hout r (attempt + 1)
      sess nextSess
    unfold uploadRetryAux
    rcases hout attempt with hs | hv
    · simp [hs, sleepCount, connectCount]
    · simp only [hv]
      refine ⟨?_, ?_⟩
      · simp [sleepCount_append, sleepCount, ih.1]
      · simp [connectCount_append, connectCount, ih.2]

/-- Claim C6 (confirmed): at most 3 storage attempts per file; runs whose
attempts only succeed or fail verification never sleep and never
reconnect (a verification failure is retried immediately); transient
failures on the first two attempts followed by success give the exact
trace sleep 1s, reconnect, sleep 2s, reconnect with exactly 3 stores; two
verification failures then success give 3 stores with no sleep and no
reconnect on one unchanged session. -/
theorem c6_retry_backoff (outcome : Nat → UOutcome) (connOk : Nat → Bool)
    (sess nextSess : Nat) :
    storeCount (upload_file_to_ftp_with_retry outcome connOk sess nextSess).2.1 ≤ 3 ∧
    ((∀ i, outcome i = UOutcome.success ∨ outcome i = UOutcome.verifyFail) →
      sleepCount (upload_file_to_ftp_with_retry outcome connOk sess nextSess).2.1 = 0 ∧
      connectCount (upload_file_to_ftp_with_retry outcome connOk sess nextSess).2.1 = 0) ∧
    upload_file_to_ftp_with_retry outcomeTTS connAlwaysOk 0 1 =
      (URes.returned true,
        [FtpEv.cwdE 0, FtpEv.storeE 0 0, FtpEv.sleepE 1, FtpEv.quitE 0,
          FtpEv.connectE 1, FtpEv.cwdE 1, FtpEv.storeE 1 1, FtpEv.sleepE 2,
          FtpEv.quitE 1, FtpEv.connectE 2, FtpEv.cwdE 2, FtpEv.storeE 2 2], 3) ∧
    storeCount (upload_file_to_ftp_with_retry outcomeTTS connAlwaysOk 0 1).2.1 = 3 ∧
    upload_file_to_ftp_with_retry outcomeVVS connAlwaysOk 0 1 =
      (URes.returned true,
        [FtpEv.cwdE 0, FtpEv.storeE 0 0, FtpEv.cwdE 0, FtpEv.storeE 0 1,
          FtpEv.cwdE 0, FtpEv.storeE 0 2], 1) ∧
    upload_file_to_ftp_with_retry
        (fun i => if i == 0 then UOutcome.verifyFail
          else if i == 1 then UOutcome.tempErr else UOutcome.success)
        connAlwaysOk 0 1 =
      (URes.returned true,
        [FtpEv.cwdE 0, FtpEv.storeE 0 0, FtpEv.cwdE 0, FtpEv.storeE 0 1,
          FtpEv.sleepE 2, FtpEv.quitE 0, FtpEv.connectE 1, FtpEv.cwdE 1,
          FtpEv.storeE 1 2], 2) := by
  refine ⟨uploadRetryAux_storeCount_le outcome connOk 3 0 sess nextSess,
    fun hout => ⟨(uploadRetryAux_no_error_no_backoff outcome connOk hout 3 0 sess nextSess).1,
      (uploadRetryAux_no_error_no_backoff outcome connOk hout 3 0 sess nextSess).2⟩,
    by decide, by decide, by decide, by decide⟩

/-- Witness for C6 with only verification failures before success. -/
theorem c6_witness :
    sleepCount (upload_file_to_ftp_with_retry outcomeVVS connAlwaysOk 0 1).2.1 = 0 :=
  ((c6_retry_backoff outcomeVVS connAlwaysOk 0 1).2.1 (fun i => by
    unfold outcomeVVS
    by_cases h : i < 2
    · exact Or.inr (if_pos h)
    · exact Or.inl (if_neg h))).1

/-- Claim C7 counterexample: a transient transport error on the first
attempt followed by a failure of `self._connect_ftp()` inside the
`error_temp` handler makes `_upload_file_to_ftp_with_retry` raise (the
`ConnectionError` is thrown outside any enclosing handler of the
function), so the call does not return a boolean. -/
theorem c7_counterexample :
    (upload_file_to_ftp_with_retry outcomeTTS connNeverOk 0 1).1 = URes.raised := by
  decide

theorem uploadRetryAux_returns_of_connOk (outcome : Nat → UOutcome)
    (connOk : Nat → Bool) (hc : ∀ m, connOk m = true) :
    ∀ (r attempt sess nextSess : Nat),
      ∃ b, (uploadRetryAux outcome connOk attempt sess nextSess r).1 = URes.returned b
  | 0, _, _, _ => ⟨false, rfl⟩
  | r + 1, attempt, sess, nextSess => by
    unfold uploadRetryAux
    match outcome attempt with
    | UOutcome.success => exact ⟨true, rfl⟩
    | UOutcome.verifyFail =>
      exact uploadRetryAux_returns_of_connOk outcome connOk hc r (attempt + 1) sess nextSess
    | UOutcome.tempErr =>
      by_cases hr : r == 0
      · exact ⟨false, by simp [hr]⟩
      · simp only [hr, hc nextSess, if_false, if_true]
        exact uploadRetryAux_returns_of_connOk outcome connOk hc r (attempt + 1) nextSess
          (nextSess + 1)
    | UOutcome.otherErr =>
      by_cases hr : r == 0
      · exact ⟨false, by simp [hr]⟩
      · simp only [hr, if_false]
        exact uploadRetryAux_returns_of_connOk outcome connOk hc r (attempt + 1) sess nextSess

/-- Claim C7 as amended (proved): whenever session re-establishment
succeeds, `_upload_file_to_ftp_with_retry` returns a boolean outcome for
every combination of attempt outcomes (the only escape is a
`ConnectionError` from the reconnect inside the transient-error
handler). -/
theorem c7_no_raise (outcome : Nat → UOutcome) (connOk : Nat → Bool)
    (sess nextSess : Nat) (hc : ∀ m, connOk m = true) :
    ∃ b, (upload_file_to_ftp_with_retry outcome connOk sess nextSess).1 =
      URes.returned b :=
  uploadRetryAux_returns_of_connOk outcome connOk hc 3 0 sess nextSess

/-- Witness for C7's amended theorem. -/
theorem c7_witness :
    ∃ b, (upload_file_to_ftp_with_retry outcomeTTS connAlwaysOk 0 1).1 =
      URes.returned b :=
  c7_no_raise outcomeTTS connAlwaysOk 0 1 (fun _ => rfl)

/-- Claim C9 (the code diverges from it): with two volumes, where the first
volume's upload hits a transient error on attempt 0, reconnects
successfully to fresh session 1 and succeeds on attempt 1, the second
volume's upload runs on the ORIGINAL session 0 — which was torn down
(`quitE 0`) during the retry — because the reconnect rebinds only the
local `ftp` variable of `_upload_file_to_ftp_with_retry`.  The trace shows
`quitE 0` (index 3) and `connectE 1` (index 4) followed by later
operations on session 0 (indices 7, 8).  With no transient error, a
single session is opened once and reused for both volumes. -/
theorem c9_session_reuse_bug :
    processVolumesOnSession connAlwaysOk 0 [outcomeTempFirst, outcomeAllOk] 1 =
      (true,
        [FtpEv.cwdE 0, FtpEv.storeE 0 0, FtpEv.sleepE 1, FtpEv.quitE 0,
          FtpEv.connectE 1, FtpEv.cwdE 1, FtpEv.storeE 1 1,
          FtpEv.cwdE 0, FtpEv.storeE 0 0], 2) ∧
    (processVolumesOnSession connAlwaysOk 0 [outcomeTempFirst, outcomeAllOk] 1).2.1.get? 3
      = some (FtpEv.quitE 0) ∧
    (processVolumesOnSession connAlwaysOk 0 [outcomeTempFirst, outcomeAllOk] 1).2.1.get? 4
      = some (FtpEv.connectE 1) ∧
    (processVolumesOnSession connAlwaysOk 0 [outcomeTempFirst, outcomeAllOk] 1).2.1.get? 7
      = some (FtpEv.cwdE 0) ∧
    (processVolumesOnSession connAlwaysOk 0 [outcomeTempFirst, outcomeAllOk] 1).2.1.get? 8
      = some (FtpEv.storeE 0 0) ∧
    processVolumesOnSession connAlwaysOk 0 [outcomeAllOk, outcomeAllOk] 1 =
      (true, [FtpEv.cwdE 0, FtpEv.storeE 0 0, FtpEv.cwdE 0, FtpEv.storeE 0 0], 1) := by
  refine ⟨by decide, by decide, by decide, by decide, by decide, by decide⟩

/-! ### Claim C8: process exit codes and loop continuation -/

theorem runStep_fold_length (listing : String → Option (List String))
    (uploadOk : String → Bool) :
    ∀ (l : List (String × List String)) (acc : List String × List String),
      (l.foldl (runStep listing uploadOk) acc).1.length +
        (l.foldl (runStep listing uploadOk) acc).2.length =
      acc.1.length + acc.2.length + l.length
  | [], acc => by simp
  | s :: rest, acc => by
    have ih := runStep_fold_length listing uploadOk rest (runStep listing uploadOk acc s)
    simp only [List.foldl_cons, List.length_cons, ih]
    unfold runStep
    by_cases h : (process_archive_set (listing s.1) s.1 s.2 uploadOk).1
    · simp [h]
      omega
    · simp [h]
      omega

/-- Claim C8 (confirmed): with a working connection and remote directory,
the exit status is never 2 — it is 0 when no set failed and 1 when at
least one failed — and every discovered set is classified (successes plus
failures exhaust the sets, so one set's failure never aborts iteration);
a connection failure or a remote-directory failure exits 2; an external
interruption exits 130. -/
theorem c8_exit_codes (w : RunWorld) :
    (w.connectOk = true → w.ensureDirOk = true →
      mainExit w false true ≠ 2 ∧
      ((run w).failed = [] → mainExit w false true = 0) ∧
      ((run w).failed ≠ [] → mainExit w false true = 1) ∧
      (run w).successful.length + (run w).failed.length = w.archiveSets.length) ∧
    (w.connectOk = false → mainExit w false true = 2) ∧
    (w.connectOk = true → w.ensureDirOk = false → mainExit w false true = 2) ∧
    (∀ i : Bool, mainExit w true i = 130) := by
  refine ⟨?_, ?_, ?_, fun i => rfl⟩
  · intro hconn hdir
    by_cases hempty : w.archiveSets.isEmpty
    · have hrun : run w = ⟨none, [], [], [], []⟩ := by
        unfold run
        simp [hconn, hdir, hempty]
      rw [List.isEmpty_iff] at hempty
      refine ⟨?_, ?_, ?_, ?_⟩ <;>
        simp [mainExit, hrun, hempty]
    · have hrun : run w =
          ⟨some (if (w.archiveSets.foldl (runStep w.listing w.uploadOk) ([], [])).2.isEmpty
              then 0 else 1),
            (w.archiveSets.foldl (runStep w.listing w.uploadOk) ([], [])).1,
            (w.archiveSets.foldl (runStep w.listing w.uploadOk) ([], [])).2,
            (if (w.archiveSets.foldl (runStep w.listing w.uploadOk) ([], [])).1.isEmpty
              then []
              else cleanup_old_ftp_backups w.remoteListing
                (w.archiveSets.foldl (runStep w.listing w.uploadOk) ([], [])).1 w.maxCopies),
            (if (w.archiveSets.foldl (runStep w.listing w.uploadOk) ([], [])).1.isEmpty
              then []
              else cleanup_local_archives
                (w.archiveSets.foldl (runStep w.listing w.uploadOk) ([], [])).1
                w.localFiles)⟩ := by
        unfold run
        simp [hconn, hdir, hempty]
      refine ⟨?_, ?_, ?_, ?_⟩
      · rw [mainExit]
        simp only [hrun]
        by_cases hf : (w.archiveSets.foldl (runStep w.listing w.uploadOk) ([], [])).2.isEmpty
        · simp [hf]
        · simp [hf]
      · intro hnof
        rw [mainExit]
        simp only [hrun] at hnof ⊢
        simp [List.isEmpty_iff, hnof]
      · intro hsomef
        rw [mainExit]
        simp only [hrun] at hsomef ⊢
        simp [List.isEmpty_iff, hsomef]
      · simp only [hrun]
        simpa using runStep_fold_length w.listing w.uploadOk w.archiveSets ([], [])
  · intro hconn
    have hrun : run w = ⟨some 2, [], [], [], []⟩ := by
      unfold run
      simp [hconn]
    simp [mainExit, hrun]
  · intro hconn hdir
    have hrun : run w = ⟨some 2, [], [], [], []⟩ := by
      unfold run
      simp [hconn, hdir]
    simp [mainExit, hrun]

/-- Witness for C8 on a world whose single set fails to upload. -/
def w0 : RunWorld :=
  ⟨true, true, [("b.tar", ["b.tar"])], fun _ => none, fun _ => false, [], [], 5⟩

/-- Witness for C8: the failing single-set world exits with status 1. -/
theorem c8_witness : mainExit w0 false true = 1 :=
  ((c8_exit_codes w0).1 rfl rfl).2.2.1 (by decide)

/-! ### Claims C3 and C2: the Retention Manager -/

theorem addToGroups_sound (succ : List String) (b f : String)
    (hb : b ∈ succ) (hf : get_archive_base_name f = some b) :
    ∀ gs : List (String × List String),
      (∀ p ∈ gs, p.1 ∈ succ ∧ ∀ x ∈ p.2, get_archive_base_name x = some p.1) →
      ∀ p ∈ addToGroups gs b f,
        p.1 ∈ succ ∧ ∀ x ∈ p.2, get_archive_base_name x = some p.1
  | [] => by
    intro _ p hp
    simp only [addToGroups, List.mem_singleton] at hp
    subst hp
    refine ⟨hb, ?_⟩
    intro x hx
    simp only [List.mem_singleton] at hx
    subst hx
    exact hf
  | q :: rest => by
    intro hgs p hp
    unfold addToGroups at hp
    by_cases hq : q.1 == b
    · rw [if_pos hq] at hp
      rcases List.mem_cons.mp hp with h1 | h2
      · subst h1
        refine ⟨(hgs q (List.mem_cons_self q rest)).1, ?_⟩
        intro x hx
        rcases List.mem_append.mp hx with hx1 | hx2
        · exact (hgs q (List.mem_cons_self q rest)).2 x hx1
        · simp only [List.mem_singleton] at hx2
          subst hx2
          rw [hf, (beq_iff_eq.mp hq)]
      · exact hgs p (List.mem_cons_of_mem q h2)
    · rw [if_neg hq] at hp
      rcases List.mem_cons.mp hp with h1 | h2
      · rw [h1]
        exact hgs q (List.mem_cons_self q rest)
      · exact addToGroups_sound succ b f hb hf rest
          (fun p2 hp2 => hgs p2 (List.mem_cons_of_mem q hp2)) p h2

theorem ftpGroups_fold_sound (succ : List String) :
    ∀ (files : List String) (gs : List (String × List String)),
      (∀ p ∈ gs, p.1 ∈ succ ∧ ∀ x ∈ p.2, get_archive_base_name x = some p.1) →
      ∀ p ∈ files.foldl (ftpGroupStep succ) gs,
        p.1 ∈ succ ∧ ∀ x ∈ p.2, get_archive_base_name x = some p.1
  | [], _ => fun hgs p hp => hgs p hp
  | f :: files, gs => by
    intro hgs p hp
    rw [List.foldl_cons] at hp
    refine ftpGroups_fold_sound succ files (ftpGroupStep succ gs f) ?_ p hp
    intro q hq
    rcases hbase : get_archive_base_name f with _ | b
    · simp only [ftpGroupStep, hbase] at hq
      exact hgs q hq
    · simp only [ftpGroupStep, hbase] at hq
      by_cases hmem : succ.contains b
      · rw [if_pos hmem] at hq
        exact addToGroups_sound succ b f (List.elem_iff.mp hmem) hbase gs hgs q hq
      · rw [if_neg hmem] at hq
        exact hgs q hq

theorem ftp_timestamped_sets_mem (files succ : List String)
    (e : Nat × String × List String) (he : e ∈ ftp_timestamped_sets files succ) :
    e.2.1 ∈ succ ∧ get_archive_timestamp e.2.1 = some e.1 ∧
      ∀ x ∈ e.2.2, get_archive_base_name x = some e.2.1 := by
  unfold ftp_timestamped_sets at he
  rcases List.mem_filterMap.mp he with ⟨p, hp, hpe⟩
  rcases hts : get_archive_timestamp p.1 with _ | t
  · rw [hts] at hpe
    simp at hpe
  · rw [hts] at hpe
    simp only [Option.some.injEq] at hpe
    subst hpe
    have hsound := ftpGroups_fold_sound succ files [] (by simp) p hp
    refine ⟨hsound.1, hts, ?_⟩
    intro x hx
    simp only [sortByVolume, List.mem_insertionSort] at hx
    exact hsound.2 x hx

theorem addToGroups_mem_preserved (gs : List (String × List String))
    (b f : String) {b' : String} {fs' : List String} (h : (b', fs') ∈ gs) :
    ∃ fs'', (b', fs'') ∈ addToGroups gs b f ∧ fs' ⊆ fs'' := by
  induction gs with
  | nil => simp at h
  | cons q rest ih =>
    unfold addToGroups
    by_cases hq : q.1 == b
    · rw [if_pos hq]
      rcases List.mem_cons.mp h with h1 | h2
      · refine ⟨fs' ++ [f], ?_, List.subset_append_left _ _⟩
        have hq1 : q = (b', fs') := h1.symm
        simp [hq1]
      · exact ⟨fs', List.mem_cons_of_mem _ h2, List.Subset.refl _⟩
    · rw [if_neg hq]
      rcases List.mem_cons.mp h with h1 | h2
      · refine ⟨fs', ?_, List.Subset.refl _⟩
        rw [h1]
        exact List.mem_cons_self _ _
      · obtain ⟨fs'', h3, h4⟩ := ih h2
        exact ⟨fs'', List.mem_cons_of_mem _ h3, h4⟩

theorem addToGroups_mem_added (gs : List (String × List String)) (b f : String) :
    ∃ fs, (b, fs) ∈ addToGroups gs b f ∧ f ∈ fs := by
  induction gs with
  | nil => exact ⟨[f], by simp [addToGroups], by simp⟩
  | cons q rest ih =>
    unfold addToGroups
    by_cases hq : q.1 == b
    · refine ⟨q.2 ++ [f], ?_, by simp⟩
      rw [if_pos hq]
      have : q.1 = b := beq_iff_eq.mp hq
      rw [this]
      exact List.mem_cons_self _ _
    · rw [if_neg hq]
      obtain ⟨fs, h1, h2⟩ := ih
      exact ⟨fs, List.mem_cons_of_mem _ h1, h2⟩

theorem ftpGroups_fold_complete (succ : List String) :
    ∀ (files : List String) (gs : List (String × List String)) (b f : String),
      ((∃ fs, (b, fs) ∈ gs ∧ f ∈ fs) ∨
        (f ∈ files ∧ get_archive_base_name f = some b ∧ b ∈ succ)) →
      ∃ fs, (b, fs) ∈ files.foldl (ftpGroupStep succ) gs ∧ f ∈ fs
  | [], gs, b, f => by
    intro h
    rcases h with h | h
    · exact h
    · simp at h
  | g :: files, gs, b, f => by
    intro h
    rw [List.foldl_cons]
    apply ftpGroups_fold_complete succ files (ftpGroupStep succ gs g) b f
    rcases h with ⟨fs, hmem, hf⟩ | ⟨hmemf, hbase, hsucc⟩
    · left
      rcases hb : get_archive_base_name g with _ | b2
      · simp only [ftpGroupStep, hb]
        exact ⟨fs, hmem, hf⟩
      · simp only [ftpGroupStep, hb]
        by_cases hc : succ.contains b2
        · rw [if_pos hc]
          obtain ⟨fs'', h1, h2⟩ := addToGroups_mem_preserved gs b2 g hmem
          exact ⟨fs'', h1, h2 hf⟩
        · rw [if_neg hc]
          exact ⟨fs, hmem, hf⟩
    · rcases List.mem_cons.mp hmemf with h1 | h2
      · subst h1
        left
        simp only [ftpGroupStep, hbase]
        rw [if_pos (List.elem_iff.mpr hsucc)]
        exact addToGroups_mem_added gs b f
      · right
        exact ⟨h2, hbase, hsucc⟩

theorem pySliceDropLastN_subset (l : List (Nat × String × List String)) (m : Nat) :
    pySliceDropLastN l m ⊆ l := by
  unfold pySliceDropLastN
  by_cases hm : m == 0
  · rw [if_pos hm]
    exact List.nil_subset l
  · rw [if_neg hm]
    exact List.take_subset _ l

theorem run_no_success_no_remote_delete (w : RunWorld)
    (h : (run w).successful = []) : (run w).remoteDeleted = [] := by
  unfold run at h ⊢
  by_cases h1 : w.connectOk
  · by_cases h2 : w.ensureDirOk
    · by_cases h3 : w.archiveSets.isEmpty
      · simp [h1, h2, h3]
      · simp only [h1, h2, h3] at h ⊢
        simp only [Bool.not_true, Bool.not_false] at h ⊢
        simp at h ⊢
        simp [h]
    · simp [h1, h2]
  · simp [h1]

/-- Claim C3 counterexample: with `max_copies = 0` the claim demands that
all but the newest 0 sets — i.e. every timestamped successful set — be
deleted, but Python's `archive_timestamps[:-0]` is the empty slice, so the
code deletes nothing even though one timestamped successful set exists. -/
theorem c3_counterexample :
    cleanup_old_ftp_backups ["s_20260101_000000_h.tar"] ["s_20260101_000000_h.tar"] 0
      = [] ∧
    (ftp_timestamped_sets ["s_20260101_000000_h.tar"]
      ["s_20260101_000000_h.tar"]).length = 1 := by
  refine ⟨by decide, by decide⟩

/-- Claim C3 as amended (proved): every remote file whose deletion is
attempted belongs to a group with a recognized base name that is in this
run's successful set and has a parseable timestamp (so untimestamped sets
are never deleted); when at most `max_copies` timestamped successful
groups exist nothing is deleted (this also covers `max_copies = 0`, where
the empty `[:-0]` slice deletes nothing, diverging from the claim);
every deleted file's set timestamp is ≤ the timestamp of any successful
timestamped set that kept a file; if zero sets succeeded this run, the
remote prune deletes nothing; and for six successful timestamped sets
`T1 < ... < T6` with `max_copies = 5`, exactly the `T1` set's file is
deleted. -/
theorem c3_remote_prune (files succ : List String) (mc : Nat) :
    (∀ f ∈ cleanup_old_ftp_backups files succ mc,
      ∃ b t, get_archive_base_name f = some b ∧ b ∈ succ ∧
        get_archive_timestamp b = some t) ∧
    ((ftp_timestamped_sets files succ).length ≤ mc →
      cleanup_old_ftp_backups files succ mc = []) ∧
    (∀ f ∈ cleanup_old_ftp_backups files succ mc,
      ∀ b' t' f', b' ∈ succ → get_archive_timestamp b' = some t' →
        f' ∈ files → get_archive_base_name f' = some b' →
        f' ∉ cleanup_old_ftp_backups files succ mc →
        ∃ b t, get_archive_base_name f = some b ∧
          get_archive_timestamp b = some t ∧ t ≤ t') ∧
    (∀ w : RunWorld, (run w).successful = [] → (run w).remoteDeleted = []) ∧
    cleanup_old_ftp_backups
      ["s_20260103_000000_h.tar", "s_20260101_000000_h.tar",
        "s_20260106_000000_h.tar", "s_20260102_000000_h.tar",
        "s_20260105_000000_h.tar", "s_20260104_000000_h.tar"]
      ["s_20260101_000000_h.tar", "s_20260102_000000_h.tar",
        "s_20260103_000000_h.tar", "s_20260104_000000_h.tar",
        "s_20260105_000000_h.tar", "s_20260106_000000_h.tar"] 5
      = ["s_20260101_000000_h.tar"] := by
  refine ⟨?_, ?_, ?_, fun w => run_no_success_no_remote_delete w, by decide⟩
  · intro f hf
    unfold cleanup_old_ftp_backups at hf
    by_cases hlt : mc < (sortByTs (ftp_timestamped_sets files succ)).length
    · rw [if_pos hlt] at hf
      rcases List.mem_flatMap.mp hf with ⟨e, he, hfe⟩
      have he2 : e ∈ sortByTs (ftp_timestamped_sets files succ) :=
        pySliceDropLastN_subset _ _ he
      have he3 : e ∈ ftp_timestamped_sets files succ := by
        simpa [sortByTs] using he2
      obtain ⟨hb, ht, hx⟩ := ftp_timestamped_sets_mem files succ e he3
      exact ⟨e.2.1, e.1, hx f hfe, hb, ht⟩
    · rw [if_neg hlt] at hf
      simp at hf
  · intro hle
    unfold cleanup_old_ftp_backups
    have hnlt : ¬ mc < (sortByTs (ftp_timestamped_sets files succ)).length := by
      rw [sortByTs, List.length_insertionSort]
      omega
    rw [if_neg hnlt]
  · intro f hf b' t' f' hb' ht' hf'files hbase' hnotdel
    unfold cleanup_old_ftp_backups at hf hnotdel
    by_cases hlt : mc < (sortByTs (ftp_timestamped_sets files succ)).length
    · rw [if_pos hlt] at hf hnotdel
      unfold pySliceDropLastN at hf hnotdel
      by_cases hm0 : mc == 0
      · rw [if_pos hm0] at hf
        simp at hf
      · rw [if_neg hm0] at hf hnotdel
        rcases List.mem_flatMap.mp hf with ⟨e, he, hfe⟩
        obtain ⟨fs0, hgmem, hf'g⟩ := ftpGroups_fold_complete succ files [] b' f'
          (Or.inr ⟨hf'files, hbase', hb'⟩)
        have he' : (t', b', sortByVolume fs0) ∈ ftp_timestamped_sets files succ := by
          unfold ftp_timestamped_sets
          refine List.mem_filterMap.mpr ⟨(b', fs0), hgmem, ?_⟩
          rw [ht']
        have he'sorted : (t', b', sortByVolume fs0) ∈
            sortByTs (ftp_timestamped_sets files succ) := by
          simpa [sortByTs] using he'
        have hpw2 : List.Pairwise (fun a b : Nat × String × List String => a.1 ≤ b.1)
            ((sortByTs (ftp_timestamped_sets files succ)).take
                ((sortByTs (ftp_timestamped_sets files succ)).length - mc) ++
              (sortByTs (ftp_timestamped_sets files succ)).drop
                ((sortByTs (ftp_timestamped_sets files succ)).length - mc)) := by
          rw [List.take_append_drop]
          haveI : IsTotal (Nat × String × List String)
              (fun a b => a.1 ≤ b.1) := ⟨fun a b => Nat.le_total a.1 b.1⟩
          haveI : IsTrans (Nat × String × List String)
              (fun a b => a.1 ≤ b.1) := ⟨fun a b c hab hbc => Nat.le_trans hab hbc⟩
          exact List.sorted_insertionSort _ _
        have hcross := (List.pairwise_append.mp hpw2).2.2
        have he'split : (t', b', sortByVolume fs0) ∈
            (sortByTs (ftp_timestamped_sets files succ)).take
                ((sortByTs (ftp_timestamped_sets files succ)).length - mc) ++
              (sortByTs (ftp_timestamped_sets files succ)).drop
                ((sortByTs (ftp_timestamped_sets files succ)).length - mc) := by
          rw [List.take_append_drop]
          exact he'sorted
        rcases List.mem_append.mp he'split with htake | hdrop
        · exfalso
          apply hnotdel
          refine List.mem_flatMap.mpr ⟨(t', b', sortByVolume fs0), htake, ?_⟩
          simp [sortByVolume, hf'g]
        · have hle := hcross e he (t', b', sortByVolume fs0) hdrop
          have he2 : e ∈ sortByTs (ftp_timestamped_sets files succ) :=
            List.take_subset _ _ he
          have he3 : e ∈ ftp_timestamped_sets files succ := by
            simpa [sortByTs] using he2
          obtain ⟨hb, ht, hx⟩ := ftp_timestamped_sets_mem files succ e he3
          exact ⟨e.2.1, e.1, hx f hfe, ht, hle⟩
    · rw [if_neg hlt] at hf
      simp at hf

/-- Witness for C3's amended theorem: one timestamped set, cap 5, nothing
deleted. -/
theorem c3_witness :
    cleanup_old_ftp_backups ["s_20260101_000000_h.tar"]
      ["s_20260101_000000_h.tar"] 5 = [] :=
  (c3_remote_prune ["s_20260101_000000_h.tar"] ["s_20260101_000000_h.tar"] 5).2.1
    (by decide)

theorem local_groups_mem {succ files : List String} {p : String × List String}
    (hp : p ∈ local_successful_groups succ files) :
    p.1 ∈ succ ∧ p.2 = files.filter (fun f => strStartsWith f p.1) ∧ p.2 ≠ [] := by
  unfold local_successful_groups at hp
  rcases List.mem_filterMap.mp hp with ⟨b, hb, hbe⟩
  by_cases hemp : (files.filter (fun f => strStartsWith f b)).isEmpty
  · rw [if_pos hemp] at hbe
    simp at hbe
  · rw [if_neg hemp] at hbe
    simp only [Option.some.injEq] at hbe
    subst hbe
    refine ⟨hb, rfl, ?_⟩
    simpa [List.isEmpty_iff] using hemp

theorem withTimestamps_mem {gs : List (String × List String)}
    {e : Nat × String × List String} (he : e ∈ withTimestamps gs) :
    (e.2.1, e.2.2) ∈ gs ∧ get_archive_timestamp e.2.1 = some e.1 := by
  unfold withTimestamps at he
  rcases List.mem_filterMap.mp he with ⟨p, hp, hpe⟩
  rcases hts : get_archive_timestamp p.1 with _ | t
  · rw [hts] at hpe
    simp at hpe
  · rw [hts] at hpe
    simp only [Option.some.injEq] at hpe
    subst hpe
    exact ⟨hp, hts⟩

theorem map_fst_local_groups_sublist (files : List String) :
    ∀ succ : List String,
      List.Sublist ((local_successful_groups succ files).map Prod.fst) succ
  | [] => by simp [local_successful_groups]
  | b :: rest => by
    unfold local_successful_groups
    rw [List.filterMap_cons]
    by_cases hemp : (files.filter (fun f => strStartsWith f b)).isEmpty
    · rw [if_pos hemp]
      exact (map_fst_local_groups_sublist files rest).cons b
    · rw [if_neg hemp]
      rw [List.map_cons]
      exact (map_fst_local_groups_sublist files rest).cons₂ b

theorem map_base_withTimestamps_sublist :
    ∀ gs : List (String × List String),
      List.Sublist ((withTimestamps gs).map (fun e => e.2.1)) (gs.map Prod.fst)
  | [] => by simp [withTimestamps]
  | p :: rest => by
    unfold withTimestamps
    rw [List.filterMap_cons]
    rcases hts : get_archive_timestamp p.1 with _ | t
    · exact (map_base_withTimestamps_sublist rest).cons p.1
    · rw [List.map_cons]
      exact (map_base_withTimestamps_sublist rest).cons₂ p.1

/-- Claim C2 counterexample: successful sets `a_20260101_000000_x.tar` (old)
and `a_20260102_000000_x.tar` (new); the local directory also holds
`a_20260101_000000_x.tar.y.tar.2`, a volume of the DIFFERENT (failed or
unprocessed) set `a_20260101_000000_x.tar.y.tar`, whose name extends the
old successful base name.  The glob `f"{base_name}*"` of
`_cleanup_local_archives` sweeps it into the old successful set's file
list and deletes it, so a file of a set not recorded `Uploaded` this run
is deleted. -/
theorem c2_counterexample :
    "a_20260101_000000_x.tar.y.tar.2" ∈
      cleanup_local_archives
        ["a_20260101_000000_x.tar", "a_20260102_000000_x.tar"]
        ["a_20260101_000000_x.tar", "a_20260101_000000_x.tar.y.tar.2",
          "a_20260102_000000_x.tar"] ∧
    get_archive_base_name "a_20260101_000000_x.tar.y.tar.2" =
      some "a_20260101_000000_x.tar.y.tar" ∧
    "a_20260101_000000_x.tar.y.tar" ∉
      ["a_20260101_000000_x.tar", "a_20260102_000000_x.tar"] := by
  refine ⟨by decide, by decide, by decide⟩

/-- Claim C2 as amended (proved): the local cleanup deletes only files whose
name extends (as the glob `f"{base_name}*"`) the base name of a
timestamped set recorded `Uploaded` this run — so a file matching no
successful base pattern, in particular a file of a `Failed` or unprocessed
set whose name does not extend a successful base name, is never deleted;
when fewer than two timestamped successful groups exist locally, nothing
is deleted; and when no successful base name is a prefix of another and a
unique newest timestamped successful set exists, that newest set's files
are never deleted.  In the counterexample scenario the newest set's file
survives. -/
theorem c2_local_cleanup (succ files : List String) :
    (∀ f ∈ cleanup_local_archives succ files,
      ∃ b, b ∈ succ ∧ strStartsWith f b = true ∧
        (get_archive_timestamp b).isSome) ∧
    ((withTimestamps (local_successful_groups succ files)).length < 2 →
      cleanup_local_archives succ files = []) ∧
    (succ.Nodup →
      (∀ b1 ∈ succ, ∀ b2 ∈ succ, b1 ≠ b2 → ¬strStartsWith b2 b1 = true) →
      ∀ B T, B ∈ succ → get_archive_timestamp B = some T →
        (∀ b t, b ∈ succ → b ≠ B → get_archive_timestamp b = some t →
          files.filter (fun f => strStartsWith f b) ≠ [] → t < T) →
        ∀ f ∈ files, strStartsWith f B = true →
          f ∉ cleanup_local_archives succ files) ∧
    "a_20260102_000000_x.tar" ∉
      cleanup_local_archives
        ["a_20260101_000000_x.tar", "a_20260102_000000_x.tar"]
        ["a_20260101_000000_x.tar", "a_20260101_000000_x.tar.y.tar.2",
          "a_20260102_000000_x.tar"] := by
  refine ⟨?_, ?_, ?_, by decide⟩
  · intro f hf
    unfold cleanup_local_archives at hf
    by_cases h1 : (local_successful_groups succ files).length ≤ 1
    · rw [if_pos h1] at hf
      simp at hf
    · rw [if_neg h1] at hf
      by_cases h2 : (withTimestamps (local_successful_groups succ files)).isEmpty
      · rw [if_pos h2] at hf
        simp at hf
      · rw [if_neg h2] at hf
        rcases List.mem_flatMap.mp hf with ⟨e, he, hfe⟩
        have he2 : e ∈ sortByTs (withTimestamps (local_successful_groups succ files)) :=
          (List.dropLast_sublist _).subset he
        have he3 : e ∈ withTimestamps (local_successful_groups succ files) := by
          simpa [sortByTs] using he2
        obtain ⟨hgrp, hts⟩ := withTimestamps_mem he3
        obtain ⟨hbsucc, hfs, _⟩ := local_groups_mem hgrp
        refine ⟨e.2.1, hbsucc, ?_, by rw [hts]; rfl⟩
        have : f ∈ files.filter (fun g => strStartsWith g e.2.1) := by
          rw [← hfs]
          exact hfe
        exact (List.mem_filter.mp this).2
  · intro hlt
    unfold cleanup_local_archives
    by_cases h1 : (local_successful_groups succ files).length ≤ 1
    · rw [if_pos h1]
    · rw [if_neg h1]
      by_cases h2 : (withTimestamps (local_successful_groups succ files)).isEmpty
      · rw [if_pos h2]
      · rw [if_neg h2]
        have hdl : (sortByTs (withTimestamps
            (local_successful_groups succ files))).dropLast = [] := by
          apply List.eq_nil_of_length_eq_zero
          rw [List.length_dropLast, sortByTs, List.length_insertionSort]
          have : ¬ (withTimestamps (local_successful_groups succ files)).isEmpty
              = true := h2
          rw [List.isEmpty_iff] at this
          have hpos : 0 < (withTimestamps (local_successful_groups succ files)).length := by
            cases hw : withTimestamps (local_successful_groups succ files) with
            | nil => exact absurd hw this
            | cons a l => simp
          omega
        rw [hdl]
        rfl
  · intro hnodup hnonest B T hBsucc hBts hmax f hffiles hfB hfdel
    unfold cleanup_local_archives at hfdel
    by_cases h1 : (local_successful_groups succ files).length ≤ 1
    · rw [if_pos h1] at hfdel
      simp at hfdel
    · rw [if_neg h1] at hfdel
      by_cases h2 : (withTimestamps (local_successful_groups succ files)).isEmpty
      · rw [if_pos h2] at hfdel
        simp at hfdel
      · rw [if_neg h2] at hfdel
        rcases List.mem_flatMap.mp hfdel with ⟨e, he, hfe⟩
        have he2 : e ∈ sortByTs (withTimestamps (local_successful_groups succ files)) :=
          (List.dropLast_sublist _).subset he
        have he3 : e ∈ withTimestamps (local_successful_groups succ files) := by
          simpa [sortByTs] using he2
        obtain ⟨hgrp, hts⟩ := withTimestamps_mem he3
        obtain ⟨hbsucc, hfs, _⟩ := local_groups_mem hgrp
        have hfb : strStartsWith f e.2.1 = true := by
          have : f ∈ files.filter (fun g => strStartsWith g e.2.1) := by
            rw [← hfs]
            exact hfe
          exact (List.mem_filter.mp this).2
        -- two prefixes of the same filename are comparable
        have hfb2 : e.2.1.data <+: f.data :=
          List.isPrefixOf_iff_prefix.mp (by simpa [strStartsWith] using hfb)
        have hfB2 : B.data <+: f.data :=
          List.isPrefixOf_iff_prefix.mp (by simpa [strStartsWith] using hfB)
        have hcomp : e.2.1.data <+: B.data ∨ B.data <+: e.2.1.data :=
          List.prefix_or_prefix_of_prefix hfb2 hfB2
        have hbB : e.2.1 = B := by
          by_contra hne
          rcases hcomp with hc | hc
          · exact hnonest e.2.1 hbsucc B hBsucc hne
              (by simp [strStartsWith, List.isPrefixOf_iff_prefix, hc])
          · exact hnonest B hBsucc e.2.1 hbsucc (fun hx => hne hx.symm)
              (by simp [strStartsWith, List.isPrefixOf_iff_prefix, hc])
        have heT : e.1 = T := by
          rw [hbB] at hts
          rw [hts] at hBts
          exact (Option.some.injEq _ _).mp hBts
        -- the sorted list decomposes as dropLast ++ [last element L]
        have hsne : sortByTs (withTimestamps (local_successful_groups succ files)) ≠ [] :=
          fun hnil => by
            rw [hnil] at he2
            simp at he2
        obtain ⟨L, hsplit⟩ : ∃ L,
            (sortByTs (withTimestamps (local_successful_groups succ files))).dropLast ++ [L]
              = sortByTs (withTimestamps (local_successful_groups succ files)) :=
          ⟨_, List.dropLast_append_getLast hsne⟩
        have hpw2 : List.Pairwise (fun a b : Nat × String × List String => a.1 ≤ b.1)
            ((sortByTs (withTimestamps (local_successful_groups succ files))).dropLast ++
              [L]) := by
          rw [hsplit]
          haveI : IsTotal (Nat × String × List String)
              (fun a b => a.1 ≤ b.1) := ⟨fun a b => Nat.le_total a.1 b.1⟩
          haveI : IsTrans (Nat × String × List String)
              (fun a b => a.1 ≤ b.1) := ⟨fun a b c hab hbc => Nat.le_trans hab hbc⟩
          exact List.sorted_insertionSort _ _
        have hcross := (List.pairwise_append.mp hpw2).2.2
        have hlast_mem : L ∈ withTimestamps (local_successful_groups succ files) := by
          have hmem : L ∈ sortByTs (withTimestamps (local_successful_groups succ files)) := by
            rw [← hsplit]
            exact List.mem_append.mpr (Or.inr (List.mem_singleton.mpr rfl))
          simpa [sortByTs] using hmem
        obtain ⟨hLgrp, hLts⟩ := withTimestamps_mem hlast_mem
        obtain ⟨hLsucc, hLfs, hLne⟩ := local_groups_mem hLgrp
        have hle : e.1 ≤ L.1 := hcross e he L (List.mem_singleton.mpr rfl)
        by_cases hLB : L.2.1 = B
        · -- two distinct positions with base B contradict nodup of base names
          have hnodup_bases : ((sortByTs (withTimestamps
              (local_successful_groups succ files))).map (fun x => x.2.1)).Nodup := by
            have hperm : List.Perm
                (sortByTs (withTimestamps (local_successful_groups succ files)))
                (withTimestamps (local_successful_groups succ files)) :=
              List.perm_insertionSort _ _
            have hsub1 := map_base_withTimestamps_sublist (local_successful_groups succ files)
            have hsub2 := map_fst_local_groups_sublist files succ
            have hnd : ((withTimestamps (local_successful_groups succ files)).map
                (fun x => x.2.1)).Nodup :=
              (hsub1.trans hsub2).nodup hnodup
            exact (hperm.map (fun x => x.2.1)).nodup_iff.mpr hnd
          rw [← hsplit] at hnodup_bases
          rw [List.map_append] at hnodup_bases
          have hdisj := (List.nodup_append.mp hnodup_bases).2.2
          exact hdisj (List.mem_map.mpr ⟨e, he, hbB⟩) (by simp [hLB])
        · have hLlt : L.1 < T := by
            apply hmax _ _ hLsucc hLB hLts
            rw [← hLfs]
            exact hLne
          omega

/-- Witness for C2's amended theorem: two timestamped successful sets but
only one with local files is below the threshold — with a single
successful set nothing is deleted. -/
theorem c2_witness :
    cleanup_local_archives ["a_20260101_000000_x.tar"]
      ["a_20260101_000000_x.tar"] = [] :=
  (c2_local_cleanup ["a_20260101_000000_x.tar"] ["a_20260101_000000_x.tar"]).2.1
    (by decide)

end FTPBackup
